import Mathlib

/--
Shallow embedding of the control plane of the DistilledAI OpenHands fork:
the planning controller (`openhands/controller/planning_controller/planning_controller.py`),
the plan tool (`openhands/agenthub/planning_agent/planning_tool.py`),
the Function Hub runner (`openhands/runtime/run_functionhub.py`) and the
tool merge of the CodeAct agent (`openhands/agenthub/codeact_agent/codeact_agent.py`).
Machine integers are modelled as `Nat`; Python `None` as `Option`;
exceptions as `Except`/`Option`.
-/
def openhandsEmbedding : Unit := ()

namespace OpenHands

/-- `EventSource` from `openhands.events`: who produced an event. -/
inductive EventSource
  | user
  | agent
  | environment
deriving DecidableEq

/-- The subclasses of `Action` that the planning controller dispatches on. -/
inductive ActionKind
  | message
  | cmdRun
  | ipythonRunCell
  | createPlan
  | markTask
  | assignTask
  | agentFinish
  | agentReject
  | changeAgentState
  | recall
  | nullAction
deriving DecidableEq

/-- The subclasses of `Observation` that the planning controller dispatches on. -/
inductive ObservationKind
  | cmdOutput
  | errorObs
  | agentStateChanged
  | planStatus
  | functionHub
  | agentCondensation
  | nullObservation
deriving DecidableEq

/-- An event is either an action or an observation. -/
inductive EventKind
  | action (a : ActionKind)
  | observation (o : ObservationKind)
deriving DecidableEq

/-- An event record: stream id, source, subtype, and optional `cause`
(`None` in Python is `none`). Only the fields the controller reads are kept. -/
structure Event where
  id : Nat
  source : EventSource
  kind : EventKind
  cause : Option Nat := none
deriving DecidableEq

/-- `AgentState` from `openhands.core.schema`. -/
inductive AgentState
  | loading
  | running
  | paused
  | awaitingUserInput
  | awaitingUserConfirmation
  | userConfirmed
  | userRejected
  | finished
  | rejected
  | errorState
  | stopped
  | rateLimited
deriving DecidableEq

/-- `isinstance(e, Action)`. -/
def isAction (e : Event) : Bool :=
  match e.kind with
  | .action _ => true
  | .observation _ => false

/-- `isinstance(e, Observation)`. -/
def isObservation (e : Event) : Bool :=
  match e.kind with
  | .action _ => false
  | .observation _ => true

/-- `isinstance(e, MessageAction)`. -/
def isMessageAction (e : Event) : Bool :=
  decide (e.kind = .action .message)

/-- `isinstance(e, MessageAction) and e.source == EventSource.USER`. -/
def isUserMessage (e : Event) : Bool :=
  isMessageAction e && decide (e.source = .user)

/-- Python truthiness of `e.cause` (`None` and `0` are falsy). -/
def causeTruthy (e : Event) : Bool :=
  match e.cause with
  | some c => decide (c ≠ 0)
  | none => false

/-- `e.cause is not None and e.cause > 0`. -/
def causePos (e : Event) : Bool :=
  match e.cause with
  | some c => decide (0 < c)
  | none => false

/-- `PlanController.should_step` (planning_controller.py lines 409-449):
whether a received event triggers a step of the planning agent. -/
def should_step (agentState : AgentState) (e : Event) : Bool :=
  match e.kind with
  | .action a =>
    if a = .createPlan ∨ a = .markTask then false
    else if a = .message ∧ e.source = .user then true
    else if a = .message ∧ agentState ≠ .awaitingUserInput then true
    else false
  | .observation o =>
    if o = .planStatus then false
    else if o = .nullObservation ∧ causePos e then true
    else if o = .agentStateChanged ∨ o = .nullObservation then false
    else true

/-- Stated from the words of claim C4, to compare against `should_step`:
step exactly on (i) a user-sourced message action, (ii) an observation with
cause > 0, (iii) an agent message action while not awaiting user input. -/
def should_step_spec (agentState : AgentState) (e : Event) : Bool :=
  (isMessageAction e && decide (e.source = .user))
    || (isObservation e && causePos e)
    || (isMessageAction e && decide (e.source = .agent)
        && decide (agentState ≠ .awaitingUserInput))

/-- `next((e for e in reversed(events[:mid_point]) if isinstance(e, Action) and
e.id == first_event.cause), None)` from `_apply_conversation_window`. -/
def find_matching_action (dropped : List Event) (cause : Nat) : Option Event :=
  dropped.reverse.find? (fun e => isAction e && decide (e.id = cause))

/-- The repair loop of `PlanController._apply_conversation_window`
(planning_controller.py lines 1024-1059).  `dropped` is `events[:mid_point]`,
`kept` is the current `kept_events` list, and the third argument is the suffix
of `kept` starting at the loop index `i`.  Note the orphan branch executes
`kept_events = kept_events[1:]` — it drops element 0, not element `i`. -/
def repair_scan (dropped kept : List Event) : List Event → List Event
  | [] => kept
  | fe :: rest =>
    if isObservation fe && causeTruthy fe then
      match fe.cause with
      | some c =>
        match find_matching_action dropped c with
        | some a => a :: kept
        | none => kept.drop 1
      | none => kept.drop 1
    else if isMessageAction fe || (isAction fe && decide (fe.source = .user)) then
      repair_scan dropped kept rest
    else
      kept

/-- `PlanController._apply_conversation_window` (planning_controller.py lines
988-1073), minus the `truncation_id`/`start_id` bookkeeping it writes into
`self.state` (no claim depends on those writes). -/
def apply_conversation_window (events : List Event) : List Event :=
  if events.isEmpty then events
  else
    let first_user_msg := events.find? isUserMessage
    let mid_point := max 1 (events.length / 2)
    let kept0 := events.drop mid_point
    let kept1 := repair_scan (events.take mid_point) kept0 kept0
    match first_user_msg with
    | some u => if u ∈ kept1 then kept1 else u :: kept1
    | none => kept1

/-- Action/observation pairing inside a window: every observation with a
truthy cause has its matching action in the same window. -/
def obs_paired (l : List Event) : Bool :=
  l.all fun e =>
    !(isObservation e && causeTruthy e)
      || l.any (fun a => isAction a && decide (e.cause = some a.id))

/-- Concrete history refuting the pairing conjunct of C1: a user message,
two agent commands, then an observation caused by the first command. -/
def exC1 : List Event :=
  [ { id := 0, source := .user, kind := .action .message },
    { id := 1, source := .agent, kind := .action .cmdRun },
    { id := 2, source := .agent, kind := .action .cmdRun },
    { id := 3, source := .environment, kind := .observation .cmdOutput, cause := some 1 } ]

/-- Concrete observation refuting C4: an error observation with no cause. -/
def exC4 : Event :=
  { id := 7, source := .environment, kind := .observation .errorObs, cause := none }

/-- Lookup in an insertion-ordered Python dict modelled as an association list. -/
def dictLookup {κ α : Type} [DecidableEq κ] (k : κ) : List (κ × α) → Option α
  | [] => none
  | (k', v) :: rest => if k' = k then some v else dictLookup k rest

/-- `d[k] = v` on an insertion-ordered Python dict: replaces in place when the
key exists, appends otherwise. -/
def dictInsert {κ α : Type} [DecidableEq κ] (k : κ) (v : α) :
    List (κ × α) → List (κ × α)
  | [] => [(k, v)]
  | (k', v') :: rest =>
    if k' = k then (k, v) :: rest else (k', v') :: dictInsert k v rest

/-- `d.pop(k)` / `del d[k]` on an insertion-ordered Python dict (keys are
unique, so removing the first occurrence removes the key). -/
def dictErase {κ α : Type} [DecidableEq κ] (k : κ) : List (κ × α) → List (κ × α)
  | [] => []
  | (k', v') :: rest => if k' = k then rest else (k', v') :: dictErase k rest

/-- Modelled from the spec: `TaskStatus` (imported by the controller from
`openhands.events.action`, a module not under src); §3 gives
`status ∈ {NOT_STARTED, IN_PROGRESS, COMPLETED, BLOCKED}`. -/
inductive TaskStatus
  | notStarted
  | inProgress
  | completed
  | blocked
deriving DecidableEq

/-- Modelled from the spec: a `Task` of a controller-side `Plan`
(`openhands.controller.state.plan`, not under src); §3 gives
`{content, status, notes, result : string | none}`; the controller reads
`content`, `status` and `result`. -/
structure CtrlTask where
  content : String
  status : TaskStatus
  result : Option String := none
deriving DecidableEq

/-- Modelled from the spec: a controller-side `Plan` is an ordered sequence of
tasks (`openhands.controller.state.plan`, not under src). -/
structure CtrlPlan where
  tasks : List CtrlTask
deriving DecidableEq

/-- Events the plan controller publishes while handling an action; only the
constructors the claims mention are modelled. -/
inductive Emitted
  | markTask (planId : String) (taskIndex : Nat) (content : String) (status : TaskStatus)
  | userMessage (content : String)
  | agentStateChanged (s : AgentState)
deriving DecidableEq

/-- The plan-controller state fields that `_handle_action` reads and writes:
`state.plans`, `state.active_plan_id`, `state.current_task_index` and the
class-level `task_controllers` two-level map (delegate controllers are opaque
`Nat` tokens). -/
structure PCState where
  plans : List (String × CtrlPlan)
  activePlanId : String
  currentTaskIndex : Nat
  taskControllers : List (String × List (Nat × Nat))
deriving DecidableEq

/-- `PlanController._is_all_task_resolved` (planning_controller.py lines
1246-1259). -/
def is_all_task_resolved (plan : CtrlPlan) : Bool :=
  plan.tasks.all fun t => decide (t.status = .completed) || decide (t.status = .blocked)

/-- The map update of `PlanController._assign_task_to_the_delegate`
(planning_controller.py lines 1192-1237): ensure the outer key exists, then
set the inner entry to the freshly built controller.  The function also
publishes the assign-task prompt `MessageAction`; no claim depends on it. -/
def assign_task_to_the_delegate (tc : List (String × List (Nat × Nat)))
    (planId : String) (taskIndex : Nat) (ctrl : Nat) :
    List (String × List (Nat × Nat)) :=
  let tc' := if (dictLookup planId tc).isNone then dictInsert planId [] tc else tc
  dictInsert planId (dictInsert taskIndex ctrl ((dictLookup planId tc').getD [])) tc'

/-- The synthetic user message published when the last task completes. -/
def finalize_message : String :=
  "All tasks are completed. Please accomplish the plan and send it to the user."

/-- The `AgentFinishAction` branch of `PlanController._handle_action`
(planning_controller.py lines 508-562), given the delegate's `final_thought`.
Returns the updated state and the published events, or `none` where Python
raises (`KeyError` on a missing plan, `IndexError` on a bad task index,
`KeyError` on `del task_controllers[plan][index]` with the index absent). -/
def handle_agent_finish (st : PCState) (finalThought : String) :
    Option (PCState × List Emitted) :=
  match dictLookup st.activePlanId st.plans with
  | none => none
  | some plan =>
    if is_all_task_resolved plan then
      some (st, [.agentStateChanged .finished])
    else
      match plan.tasks[st.currentTaskIndex]? with
      | none => none
      | some curTask =>
        let doneTask : CtrlTask :=
          { curTask with status := .completed, result := some finalThought }
        let ev1 := Emitted.markTask st.activePlanId st.currentTaskIndex doneTask.content .completed
        let tasks1 := plan.tasks.set st.currentTaskIndex doneTask
        let tcStep : Option (List (String × List (Nat × Nat))) :=
          match dictLookup st.activePlanId st.taskControllers with
          | none => some st.taskControllers
          | some inner =>
            match dictLookup st.currentTaskIndex inner with
            | none => none
            | some _ =>
              some (dictInsert st.activePlanId (dictErase st.currentTaskIndex inner)
                st.taskControllers)
        match tcStep with
        | none => none
        | some tc =>
          if st.currentTaskIndex + 1 < tasks1.length then
            match tasks1[st.currentTaskIndex + 1]? with
            | none => none
            | some nextTask =>
              let nextTask' := { nextTask with status := TaskStatus.inProgress }
              let tasks2 := tasks1.set (st.currentTaskIndex + 1) nextTask'
              some ({ st with
                        plans := dictInsert st.activePlanId { tasks := tasks2 } st.plans,
                        currentTaskIndex := st.currentTaskIndex + 1,
                        taskControllers := tc },
                    [ev1, .markTask st.activePlanId (st.currentTaskIndex + 1)
                            nextTask'.content .inProgress])
          else
            some ({ st with
                      plans := dictInsert st.activePlanId { tasks := tasks1 } st.plans,
                      taskControllers := tc },
                  [ev1, .userMessage finalize_message])

/-- `TrafficControlState` from `openhands.controller.state.state`. -/
inductive TrafficControlState
  | normal
  | throttling
  | paused
deriving DecidableEq

/-- The controller fields read and written by traffic control: cost is in
whole cents (`Nat`) instead of a float, which the comparisons preserve. -/
structure TCState where
  trafficControlState : TrafficControlState
  agentState : AgentState
  iteration : Nat
  maxIterations : Nat
  initialMaxIterations : Nat
  headlessMode : Bool
  accumulatedCost : Nat
  maxBudgetPerTask : Option Nat
  initialMaxBudgetPerTask : Option Nat
deriving DecidableEq

/-- `PlanController._handle_traffic_control` (planning_controller.py lines
791-831).  Both the headless and the interactive branch call
`_react_to_exception`, which sets the agent state to `ERROR`.  Returns the
updated state and `stop_step`. -/
def handle_traffic_control (st : TCState) : TCState × Bool :=
  if st.trafficControlState = .paused then
    ({ st with trafficControlState := .normal }, false)
  else
    ({ st with trafficControlState := .throttling, agentState := .errorState }, true)

/-- `PlanController.set_agent_state_to(AgentState.RUNNING)` restricted to the
fields of `TCState` (planning_controller.py lines 713-774): the user-resume
branch moves traffic control to `PAUSED` and bumps the iteration and budget
limits by their initial values; the other `elif` branches touch only the
pending action, not these fields. -/
def set_agent_state_to_running (st : TCState) : TCState :=
  if st.agentState = .running then st
  else if st.agentState = .paused ∧ st.trafficControlState = .throttling then
    let st2 := { st with trafficControlState := TrafficControlState.paused }
    let st3 :=
      if ¬ st2.headlessMode ∧ st2.maxIterations ≤ st2.iteration then
        { st2 with maxIterations := st2.maxIterations + st2.initialMaxIterations }
      else st2
    let st4 :=
      match st3.maxBudgetPerTask, st3.initialMaxBudgetPerTask with
      | some mb, some imb =>
        if mb ≤ st3.accumulatedCost then { st3 with maxBudgetPerTask := some (mb + imb) }
        else st3
      | _, _ => st3
    { st4 with agentState := .running }
  else { st with agentState := .running }

/-- The traffic-control prelude of `PlanController._step`
(planning_controller.py lines 314-327): check the iteration cap, then the
budget cap; the budget check overwrites `stop_step` when it runs. -/
def step_traffic_check (st : TCState) : TCState × Bool :=
  let r1 := if st.maxIterations ≤ st.iteration then handle_traffic_control st else (st, false)
  match r1.1.maxBudgetPerTask with
  | some mb => if mb < r1.1.accumulatedCost then handle_traffic_control r1.1 else r1
  | none => r1

/-- A stored plan of `PlanningTool`: the dict built by `_create_plan`
(planning_tool.py lines 177-185); step statuses are the literal strings the
tool uses. -/
structure PlanRec where
  planId : String
  title : String
  steps : List String
  stepStatuses : List String
  stepNotes : List String
  stepResults : List (Option String)
deriving DecidableEq

/-- `PlanningTool` state: `self.plans` (insertion-ordered dict) and
`self._current_plan_id`. -/
structure ToolState where
  plans : List (String × PlanRec)
  currentPlanId : Option String
deriving DecidableEq

/-- Python truthiness of an optional string (`None` and the empty string are
falsy). -/
def optStrTruthy : Option String → Bool
  | some s => decide (s ≠ "")
  | none => false

/-- `PlanningTool._create_plan` (planning_tool.py lines 153-192).  All
validation precedes the mutation; an error leaves the state as received.
The `isinstance` checks on `steps` are vacuous in this typed embedding. -/
def create_plan (st : ToolState) (planId : Option String) (title : Option String)
    (steps : Option (List String)) : ToolState × Except String Unit :=
  if ¬ optStrTruthy planId then
    (st, .error "The plan_id parameter is required for command: create")
  else
    let pid := planId.getD ""
    if (dictLookup pid st.plans).isSome then
      (st, .error "Plan already exists")
    else if ¬ optStrTruthy title then
      (st, .error "The title parameter is required for command: create")
    else
      match steps with
      | none => (st, .error "The steps parameter must be a non-empty list of strings")
      | some ss =>
        if ss.isEmpty then
          (st, .error "The steps parameter must be a non-empty list of strings")
        else
          let plan : PlanRec :=
            { planId := pid, title := title.getD "", steps := ss,
              stepStatuses := List.replicate ss.length "not_started",
              stepNotes := List.replicate ss.length "",
              stepResults := List.replicate ss.length none }
          ({ plans := dictInsert pid plan st.plans, currentPlanId := some pid }, .ok ())

/-- The per-index rebuild of step statuses in `PlanningTool._update_plan`
(planning_tool.py lines 258-267).  Indexing is total here via `getD`; Python
would raise `IndexError` only when the length invariant
`len(statuses) = len(steps)` is broken. -/
def new_statuses_fn (ss oldSteps oldStatuses : List String) : List String :=
  (List.range ss.length).map fun i =>
    if i < oldSteps.length ∧ ss.getD i "" = oldSteps.getD i "" then
      oldStatuses.getD i "not_started"
    else "not_started"

/-- The per-index rebuild of step notes in `PlanningTool._update_plan`. -/
def new_notes_fn (ss oldSteps oldNotes : List String) : List String :=
  (List.range ss.length).map fun i =>
    if i < oldSteps.length ∧ ss.getD i "" = oldSteps.getD i "" then oldNotes.getD i ""
    else ""

/-- The per-index rebuild of step results in `PlanningTool._update_plan`;
the code guards `i < len(old_results)` explicitly for results. -/
def new_results_fn (ss oldSteps : List String) (oldResults : List (Option String)) :
    List (Option String) :=
  (List.range ss.length).map fun i =>
    if i < oldSteps.length ∧ ss.getD i "" = oldSteps.getD i "" then
      (if i < oldResults.length then oldResults.getD i none else none)
    else none

/-- `PlanningTool._update_plan` (planning_tool.py lines 224-276): fall back to
the active plan id, mutate the title when given, and rebuild the step lists
when a non-empty steps list is given. -/
def update_plan (st : ToolState) (planId : Option String) (title : Option String)
    (steps : Option (List String)) : ToolState × Except String Unit :=
  let pid := if optStrTruthy planId then planId else st.currentPlanId
  match pid with
  | none => (st, .error "Plan not found")
  | some p =>
    if p = "" then (st, .error "Plan not found")
    else
      match dictLookup p st.plans with
      | none => (st, .error "Plan not found")
      | some plan0 =>
        let plan1 := if optStrTruthy title then { plan0 with title := title.getD "" } else plan0
        let plan2 :=
          match steps with
          | some ss =>
            if ss.isEmpty then plan1
            else
              { plan1 with
                  steps := ss,
                  stepStatuses := new_statuses_fn ss plan1.steps plan1.stepStatuses,
                  stepNotes := new_notes_fn ss plan1.steps plan1.stepNotes,
                  stepResults := new_results_fn ss plan1.steps plan1.stepResults }
          | none => plan1
        ({ st with plans := dictInsert p plan2 st.plans }, .ok ())

/-- `PlanningTool._delete_plan` (planning_tool.py lines 362-376): pop the
plan; when it was the active one, the new active plan is `next(iter(plans))`
— the first remaining key in insertion order — or `None`. -/
def delete_plan (st : ToolState) (planId : Option String) : ToolState × Except String Unit :=
  if ¬ optStrTruthy planId then
    (st, .error "The plan_id parameter is required for command: delete")
  else
    let pid := planId.getD ""
    match dictLookup pid st.plans with
    | none => (st, .error "Plan not found")
    | some _ =>
      let plans' := dictErase pid st.plans
      let current' :=
        if st.currentPlanId = some pid then plans'.head?.map Prod.fst
        else st.currentPlanId
      ({ plans := plans', currentPlanId := current' }, .ok ())

/-- A tool descriptor for the LLM: the function name plus an opaque payload
standing for the schema, description and hub id. -/
structure ToolParam where
  name : String
  payload : Nat := 0
deriving DecidableEq

/-- `tool_names = [tool['function']['name'] for tool in combined_tools]`. -/
def tool_names (l : List ToolParam) : List String := l.map ToolParam.name

/-- `duplicates = [name for name in tool_names if tool_names.count(name) > 1]`
followed by `if duplicates:`. -/
def has_duplicate_names (l : List ToolParam) : Bool :=
  (tool_names l).any fun n => 1 < (tool_names l).count n

/-- The dedup loop of `CodeActAgent.step`: append a tool only when its name
has not been seen, recording seen names in order. -/
def dedup_tools (seen : List String) : List ToolParam → List ToolParam
  | [] => []
  | t :: rest =>
    if t.name ∈ seen then dedup_tools seen rest
    else t :: dedup_tools (seen ++ [t.name]) rest

/-- The tool merge of `CodeActAgent.step` (codeact_agent.py lines 147-170):
built-in tools first, Function Hub tools appended, deduplication performed
only when some name repeats. -/
def combined_tools (builtIn functionHub : List ToolParam) : List ToolParam :=
  let c := builtIn ++ functionHub
  if has_duplicate_names c then dedup_tools [] c else c

/-- `ResponseType` from run_functionhub.py. -/
inductive ResponseType
  | text
  | imageUrl
  | videoUrl
  | audioUrl
  | image
  | video
  | audio
  | blob
  | errorResp
deriving DecidableEq

/-- `BaseFunctionHubResponse`. -/
structure FHResponse where
  responseType : ResponseType
  content : String := ""
  description : String := ""
deriving DecidableEq

/-- The fields of `FunctionHubObservation` that `run` fills (its `content`
equals `textContent`). -/
structure FHObservation where
  functionName : String
  textContent : String
  imageUrls : List String
  videoUrls : List String
  audioUrls : List String
  blob : String
  error : String
deriving DecidableEq

/-- Python `a or b` on strings: the left operand when truthy. -/
def orDefault (s d : String) : String := if s = "" then d else s

/-- `response.response_type.value.capitalize()` for the base64 media types,
the only place `run` uses it. -/
def capitalizedValue : ResponseType → String
  | .image => "Image"
  | .video => "Video"
  | .audio => "Audio"
  | _ => ""

/-- The aggregation accumulator of `FunctionHubRunner.run`. -/
structure FHAcc where
  textContents : List String := []
  imageUrls : List String := []
  videoUrls : List String := []
  audioUrls : List String := []
  blob : String := ""
  error : String := ""
deriving DecidableEq

/-- One iteration of the response loop in `FunctionHubRunner.run`
(run_functionhub.py lines 86-131).  Returns `none` where Python raises: the
base64 media branch evaluates `response.type.value` when the description is
empty, and `BaseFunctionHubResponse` has no `type` attribute
(`AttributeError`). -/
def run_step (acc : FHAcc) (r : FHResponse) : Option FHAcc :=
  match r.responseType with
  | .errorResp =>
    some { acc with
             error := (if acc.error ≠ "" then acc.error ++ "\n" else acc.error) ++ r.content }
  | .text => some { acc with textContents := acc.textContents ++ [r.content] }
  | .imageUrl =>
    some { acc with
             imageUrls := acc.imageUrls ++ [r.content],
             textContents := acc.textContents
               ++ ["[Image: " ++ orDefault r.description "Generated image" ++ "]"] }
  | .videoUrl =>
    some { acc with
             videoUrls := acc.videoUrls ++ [r.content],
             textContents := acc.textContents
               ++ ["[Video: " ++ orDefault r.description "Generated video" ++ "]"] }
  | .audioUrl =>
    some { acc with
             audioUrls := acc.audioUrls ++ [r.content],
             textContents := acc.textContents
               ++ ["[Audio: " ++ orDefault r.description "Generated audio" ++ "]"] }
  | .blob =>
    some { acc with
             blob := r.content,
             textContents := acc.textContents
               ++ ["[File: " ++ orDefault r.description "Generated file" ++ "]"] }
  | rt =>
    let acc1 := if acc.blob = "" then { acc with blob := r.content } else acc
    if r.description = "" then none
    else
      some { acc1 with
               textContents := acc1.textContents
                 ++ ["[" ++ capitalizedValue rt ++ ": " ++ r.description ++ "]"] }

/-- The whole response loop of `FunctionHubRunner.run`. -/
def run_loop (acc : FHAcc) : List FHResponse → Option FHAcc
  | [] => some acc
  | r :: rest =>
    match run_step acc r with
    | none => none
    | some acc' => run_loop acc' rest

/-- `FunctionHubRunner.run` (run_functionhub.py lines 62-153) applied to the
responses returned by `execute_function`. -/
def functionhub_run (responses : List FHResponse) : Option FHObservation :=
  let functionName :=
    match responses.head? with
    | some r => if r.description ≠ "" then r.description else ""
    | none => ""
  match run_loop {} responses with
  | none => none
  | some acc =>
    some { functionName := functionName,
           textContent := String.intercalate "\n" acc.textContents,
           imageUrls := acc.imageUrls,
           videoUrls := acc.videoUrls,
           audioUrls := acc.audioUrls,
           blob := acc.blob,
           error := acc.error }

/-- The text fragment a single response contributes to the combined text, per
the amended reading of C8; `none` for error responses. -/
def text_piece (r : FHResponse) : Option String :=
  match r.responseType with
  | .text => some r.content
  | .imageUrl => some ("[Image: " ++ orDefault r.description "Generated image" ++ "]")
  | .videoUrl => some ("[Video: " ++ orDefault r.description "Generated video" ++ "]")
  | .audioUrl => some ("[Audio: " ++ orDefault r.description "Generated audio" ++ "]")
  | .blob => some ("[File: " ++ orDefault r.description "Generated file" ++ "]")
  | .errorResp => none
  | rt => some ("[" ++ capitalizedValue rt ++ ": " ++ r.description ++ "]")

/-- Base64-encoded media responses (IMAGE, VIDEO, AUDIO). -/
def is_base64_media (r : FHResponse) : Bool :=
  decide (r.responseType = .image) || decide (r.responseType = .video)
    || decide (r.responseType = .audio)

/-- The blob value the code actually produces, stated response-wise: the last
BLOB content wins; base64 media contents only fill a still-empty blob. -/
def blob_outcome (responses : List FHResponse) : String :=
  match (responses.filter fun r => decide (r.responseType = ResponseType.blob)).getLast? with
  | some r => r.content
  | none =>
    match (responses.filter is_base64_media).head? with
    | some r => r.content
    | none => ""

/-- Join a list of strings with newline separators (the effect of the
error-field accumulation on non-empty pieces). -/
def joinNL : List String → String
  | [] => ""
  | c :: cs => if cs = [] then c else c ++ "\n" ++ joinNL cs

/-- The error-field accumulation of `run`, restricted to the contents of the
ERROR responses: `if error: error += chr(10); error += content`. -/
def err_join (e : String) : List String → String
  | [] => e
  | c :: cs => err_join ((if e ≠ "" then e ++ "\n" else e) ++ c) cs

/-- The blob-field accumulation of `run`, response by response: a BLOB
response overwrites, a base64 media response fills only an empty blob. -/
def blob_fold (b : String) : List FHResponse → String
  | [] => b
  | r :: rest =>
    blob_fold
      (if r.responseType = ResponseType.blob then r.content
       else if is_base64_media r then (if b = "" then r.content else b)
       else b) rest

/-- Concrete response list refuting the blob clause of C8: two BLOB
responses; the first non-empty content is "a" but the code keeps "b". -/
def exC8 : List FHResponse :=
  [ { responseType := .blob, content := "a", description := "d1" },
    { responseType := .blob, content := "b", description := "d2" } ]

/-- Lookup of the delegate-controller entry of a `(plan_id, task_index)` pair
in the two-level map. -/
def tc_lookup (tc : List (String × List (Nat × Nat))) (planId : String)
    (taskIndex : Nat) : Option Nat :=
  dictLookup taskIndex ((dictLookup planId tc).getD [])

/-- The `del task_controllers[plan][index]` in the `AgentFinish` branch does
not raise: either the plan has no outer entry, or the index is present. -/
def delegate_del_ok (st : PCState) : Bool :=
  match dictLookup st.activePlanId st.taskControllers with
  | none => true
  | some inner => (dictLookup st.currentTaskIndex inner).isSome

/-- C1 witness history: a user message, one command, its observation. -/
def exC1w : List Event :=
  [ { id := 0, source := .user, kind := .action .message },
    { id := 1, source := .agent, kind := .action .cmdRun },
    { id := 2, source := .environment, kind := .observation .cmdOutput, cause := some 1 } ]

/-- A two-task plan used by concrete controller states below. -/
def exPlan2 : CtrlPlan :=
  { tasks := [ { content := "t0", status := .inProgress },
               { content := "t1", status := .notStarted } ] }

/-- A controller state mid-plan: task 0 in progress, its delegate registered. -/
def exPC : PCState :=
  { plans := [("p", exPlan2)], activePlanId := "p", currentTaskIndex := 0,
    taskControllers := [("p", [(0, 7)])] }

/-- A stored plan with mixed step statuses, notes and results. -/
def exPlanRec : PlanRec :=
  { planId := "q", title := "T", steps := ["a", "b"],
    stepStatuses := ["completed", "in_progress"], stepNotes := ["n0", ""],
    stepResults := [some "r0", none] }

/-- A second stored plan. -/
def exPlanRec2 : PlanRec :=
  { planId := "r", title := "U", steps := ["c"], stepStatuses := ["not_started"],
    stepNotes := [""], stepResults := [none] }

/-- A tool state with one plan, which is active. -/
def exTool : ToolState := { plans := [("q", exPlanRec)], currentPlanId := some "q" }

/-- A tool state with two plans, the first one active. -/
def exTool2 : ToolState :=
  { plans := [("q", exPlanRec), ("r", exPlanRec2)], currentPlanId := some "q" }

/-- C7 counterexample state: throttled and paused at the limit, with
`max_iterations` already once above the initial value. -/
def exC7 : TCState :=
  { trafficControlState := .throttling, agentState := .paused, iteration := 10,
    maxIterations := 10, initialMaxIterations := 5, headlessMode := false,
    accumulatedCost := 0, maxBudgetPerTask := none, initialMaxBudgetPerTask := none }

/-- C7 witness state for the breach conjunct: running normally at the limit. -/
def exC7a : TCState :=
  { trafficControlState := .normal, agentState := .running, iteration := 5,
    maxIterations := 5, initialMaxIterations := 5, headlessMode := true,
    accumulatedCost := 0, maxBudgetPerTask := none, initialMaxBudgetPerTask := none }

/-- C7 witness state for the resume conjunct: interactive, throttled and
paused with `max_iterations` still at its initial value 5. -/
def exC7b : TCState :=
  { trafficControlState := .throttling, agentState := .paused, iteration := 5,
    maxIterations := 5, initialMaxIterations := 5, headlessMode := false,
    accumulatedCost := 0, maxBudgetPerTask := none, initialMaxBudgetPerTask := none }

/-- C7 witness state for the resumed-breach conjunct. -/
def exC7c : TCState :=
  { trafficControlState := .paused, agentState := .running, iteration := 10,
    maxIterations := 10, initialMaxIterations := 5, headlessMode := false,
    accumulatedCost := 0, maxBudgetPerTask := none, initialMaxBudgetPerTask := none }

/-- C8 witness responses: text, an image url, two errors, an audio url with
empty description, and a base64 image. -/
def exC8w : List FHResponse :=
  [ { responseType := .text, content := "hello" },
    { responseType := .imageUrl, content := "http-img", description := "pic" },
    { responseType := .errorResp, content := "boom" },
    { responseType := .audioUrl, content := "http-aud", description := "" },
    { responseType := .image, content := "B64", description := "img64" },
    { responseType := .errorResp, content := "bang" } ]

/-- The controller state produced by `handle_agent_finish exPC "done"`. -/
def exPC' : PCState :=
  { plans := [("p", { tasks := [ { content := "t0", status := .completed,
                                   result := some "done" },
                                 { content := "t1", status := .inProgress,
                                   result := none } ] })],
    activePlanId := "p", currentTaskIndex := 1, taskControllers := [("p", [])] }

/-- The events published by `handle_agent_finish exPC "done"`. -/
def exEvs : List Emitted :=
  [ .markTask "p" 0 "t0" .completed, .markTask "p" 1 "t1" .inProgress ]

/-- Built-in tools for the merge witness. -/
def exTools : List ToolParam :=
  [ { name := "finish", payload := 0 }, { name := "bash", payload := 1 } ]

/-- Function Hub tools for the merge witness, one name colliding. -/
def exHub : List ToolParam :=
  [ { name := "finish", payload := 2 }, { name := "search", payload := 3 } ]

theorem dictLookup_eq_none_iff {κ α : Type} [DecidableEq κ] (k : κ)
    (m : List (κ × α)) : dictLookup k m = none ↔ k ∉ m.map Prod.fst := by
  induction m with
  | nil => simp [dictLookup]
  | cons hd tl ih =>
    obtain ⟨k', v'⟩ := hd
    rcases eq_or_ne k' k with h | h
    · subst h
      simp [dictLookup]
    · simp [dictLookup, h, ih, Ne.symm h]

theorem dictLookup_insert_self {κ α : Type} [DecidableEq κ] (k : κ) (v : α)
    (m : List (κ × α)) : dictLookup k (dictInsert k v m) = some v := by
  induction m with
  | nil => simp [dictInsert, dictLookup]
  | cons hd tl ih =>
    obtain ⟨k', v'⟩ := hd
    rcases eq_or_ne k' k with h | h
    · subst h
      simp [dictInsert, dictLookup]
    · simp [dictInsert, dictLookup, h, ih]

theorem dictLookup_erase_self {κ α : Type} [DecidableEq κ] (k : κ)
    (m : List (κ × α)) (hnd : (m.map Prod.fst).Nodup) :
    dictLookup k (dictErase k m) = none := by
  induction m with
  | nil => simp [dictErase, dictLookup]
  | cons hd tl ih =>
    obtain ⟨k', v'⟩ := hd
    simp only [List.map_cons, List.nodup_cons] at hnd
    rcases eq_or_ne k' k with h | h
    · subst h
      simp only [dictErase, if_pos rfl]
      exact (dictLookup_eq_none_iff k' tl).mpr hnd.1
    · simp [dictErase, dictLookup, h, ih hnd.2]

/-- C4 (amended): `should_step` is true exactly on message actions from the
user, on message actions of any source while the agent state is not
AWAITING_USER_INPUT, on `NullObservation`s with cause > 0, and on every other
observation except `PlanStatus` and `AgentStateChanged` — regardless of the
observation's cause; it is false on all other actions, `CreatePlan` and
`MarkTask` included. -/
theorem should_step_amended (st : AgentState) (e : Event) :
    should_step st e = true ↔
      ((isMessageAction e = true
          ∧ (e.source = EventSource.user ∨ st ≠ AgentState.awaitingUserInput))
        ∨ (e.kind = EventKind.observation .nullObservation ∧ causePos e = true)
        ∨ (isObservation e = true
            ∧ e.kind ≠ EventKind.observation .planStatus
            ∧ e.kind ≠ EventKind.observation .agentStateChanged
            ∧ e.kind ≠ EventKind.observation .nullObservation)) := by
  obtain ⟨i, s, k, c⟩ := e
  cases k with
  | action a => cases a <;> simp [should_step, isMessageAction, isObservation]
  | observation o => cases o <;> simp [should_step, isMessageAction, isObservation]

/-- C4 counterexample: an error observation with `cause = None` makes
`should_step` return true, while the claim's characterisation — an
observation steps only with cause > 0 — demands false. -/
theorem should_step_cex :
    should_step .running exC4 = true ∧ should_step_spec .running exC4 = false := by
  decide

/-- C2 counterexample: with the delegate entry for plan "p", task 0 still in
the map (controller token 1), a second `AssignTask` for the same pair
installs token 2 instead of being refused. -/
theorem delegate_spawn_cex :
    tc_lookup (assign_task_to_the_delegate
      (assign_task_to_the_delegate [] "p" 0 1) "p" 0 2) "p" 0 = some 2
    ∧ (some 2 : Option Nat) ≠ some 1 := by
  refine ⟨rfl, by decide⟩

/-- C2 (amended): the controller maintains the two-level map
`plan_id → task_index → delegate_controller`: spawning always installs the
fresh controller at its `(plan_id, task_index)` entry — replacing, not
refusing, an active one — and handling a delegate's `AgentFinish` removes
the entry of the current task. -/
theorem delegate_map_amended :
    (∀ (tc : List (String × List (Nat × Nat))) (p : String) (i c : Nat),
      tc_lookup (assign_task_to_the_delegate tc p i c) p i = some c)
    ∧ (∀ (st : PCState) (ft : String) (st' : PCState) (evs : List Emitted)
        (plan : CtrlPlan) (inner : List (Nat × Nat)),
        handle_agent_finish st ft = some (st', evs) →
        dictLookup st.activePlanId st.plans = some plan →
        is_all_task_resolved plan = false →
        dictLookup st.activePlanId st.taskControllers = some inner →
        (inner.map Prod.fst).Nodup →
        tc_lookup st'.taskControllers st.activePlanId st.currentTaskIndex = none) := by
  constructor
  · intro tc p i c
    unfold assign_task_to_the_delegate tc_lookup
    simp only [dictLookup_insert_self, Option.getD_some]
  · intro st ft st' evs plan inner h hlk hnr hinner hnd
    rcases hcur : plan.tasks[st.currentTaskIndex]? with _ | cur
    · simp [handle_agent_finish, hlk, hnr, hcur] at h
    · rcases hdi : dictLookup st.currentTaskIndex inner with _ | c0
      · simp [handle_agent_finish, hlk, hnr, hcur, hinner, hdi] at h
      · simp only [handle_agent_finish, hlk, hnr, hcur, hinner, hdi,
          Bool.false_eq_true, if_false] at h
        have hgoal :
            tc_lookup (dictInsert st.activePlanId
                (dictErase st.currentTaskIndex inner) st.taskControllers)
              st.activePlanId st.currentTaskIndex = none := by
          unfold tc_lookup
          simp only [dictLookup_insert_self, Option.getD_some]
          exact dictLookup_erase_self _ _ hnd
        split at h
        · rcases hnx : (plan.tasks.set st.currentTaskIndex
              { cur with status := TaskStatus.completed,
                         result := some ft })[st.currentTaskIndex + 1]?
            with _ | nx
          · rw [hnx] at h
            simp at h
          · rw [hnx] at h
            simp only [Option.some.injEq, Prod.mk.injEq] at h
            obtain ⟨hst', _⟩ := h
            subst hst'
            exact hgoal
        · simp only [Option.some.injEq, Prod.mk.injEq] at h
          obtain ⟨hst', _⟩ := h
          subst hst'
          exact hgoal

/-- C9 (confirmed): `_create_plan` fails exactly on a falsy `plan_id`, an
existing `plan_id`, a falsy `title`, or a missing or empty steps list, and a
failed create leaves the plans mapping and the active plan id unchanged:
all validation precedes any mutation. -/
theorem create_plan_atomic (st : ToolState) (p t : Option String)
    (s : Option (List String)) :
    ((create_plan st p t s).2.isOk = false ↔
      (optStrTruthy p = false
        ∨ (dictLookup (p.getD "") st.plans).isSome = true
        ∨ optStrTruthy t = false
        ∨ s = none ∨ s = some []))
    ∧ ((create_plan st p t s).2.isOk = false → (create_plan st p t s).1 = st) := by
  rcases s with _ | ss
  · simp only [create_plan]
    split_ifs <;> simp_all [Except.isOk, Except.toBool]
  · simp only [create_plan]
    split_ifs <;>
      simp_all [Except.isOk, Except.toBool, List.isEmpty_iff]

/-- C10 (confirmed): deleting an existing plan removes it; when it was the
active plan, the new active plan id is the first remaining plan in insertion
order (or none); otherwise the active plan id is unchanged. -/
theorem delete_plan_active_next (st : ToolState) (p : String) (plan : PlanRec)
    (hp : p ≠ "") (hlk : dictLookup p st.plans = some plan) :
    (delete_plan st (some p)).2 = Except.ok ()
    ∧ (delete_plan st (some p)).1.plans = dictErase p st.plans
    ∧ (st.currentPlanId = some p →
        (delete_plan st (some p)).1.currentPlanId
          = (dictErase p st.plans).head?.map Prod.fst)
    ∧ (st.currentPlanId ≠ some p →
        (delete_plan st (some p)).1.currentPlanId = st.currentPlanId) := by
  have htr : optStrTruthy (some p) = true := by simp [optStrTruthy, hp]
  simp only [delete_plan, htr, Bool.not_eq_true, Option.getD_some, hlk]
  by_cases hcur : st.currentPlanId = some p <;> simp [hcur]

/-- Witness for `should_step_amended` at a concrete user message. -/
theorem should_step_amended_witness :
    should_step AgentState.running
        { id := 3, source := .user, kind := .action .message, cause := none } = true := by
  rw [should_step_amended]
  exact Or.inl ⟨by decide, Or.inl (by decide)⟩

/-- Witness for `delegate_map_amended`: spawning installs the controller, and
finishing task 0 of the concrete two-task state empties its entry. -/
theorem delegate_map_amended_witness :
    tc_lookup (assign_task_to_the_delegate [] "p" 0 1) "p" 0 = some 1
    ∧ handle_agent_finish exPC "done" = some (exPC', exEvs)
    ∧ dictLookup exPC.activePlanId exPC.plans = some exPlan2
    ∧ is_all_task_resolved exPlan2 = false
    ∧ dictLookup exPC.activePlanId exPC.taskControllers = some [(0, 7)]
    ∧ (([(0, 7)] : List (Nat × Nat)).map Prod.fst).Nodup
    ∧ tc_lookup exPC'.taskControllers exPC.activePlanId exPC.currentTaskIndex = none := by
  refine ⟨delegate_map_amended.1 [] "p" 0 1, by decide, by decide, by decide,
    by decide, by decide, ?_⟩
  exact delegate_map_amended.2 exPC "done" exPC' exEvs exPlan2 [(0, 7)]
    (by decide) (by decide) (by decide) (by decide) (by decide)

/-- Witness for `create_plan_atomic`: creating plan "q" again fails and
leaves the store untouched. -/
theorem create_plan_atomic_witness :
    (create_plan exTool (some "q") (some "TT") (some ["x"])).2.isOk = false
    ∧ (create_plan exTool (some "q") (some "TT") (some ["x"])).1 = exTool := by
  refine ⟨by decide, ?_⟩
  exact (create_plan_atomic exTool (some "q") (some "TT") (some ["x"])).2 (by decide)

/-- Witness for `delete_plan_active_next`: deleting the active plan "q" of
the two-plan store promotes "r". -/
theorem delete_plan_active_next_witness :
    ("q" : String) ≠ ""
    ∧ dictLookup "q" exTool2.plans = some exPlanRec
    ∧ (delete_plan exTool2 (some "q")).1.plans = [("r", exPlanRec2)]
    ∧ (delete_plan exTool2 (some "q")).1.currentPlanId = some "r" := by
  have h := delete_plan_active_next exTool2 "q" exPlanRec (by decide) (by decide)
  refine ⟨by decide, by decide, ?_, ?_⟩
  · rw [h.2.1]
    decide
  · rw [h.2.2.1 (by decide)]
    decide

/-- C7 counterexample: resuming the throttled state with
`max_iterations = 10` and initial budget 5 yields 15, not the doubled 20;
and after a resume of the 5/5 state the next step leaves traffic control
`PAUSED` instead of returning it to `NORMAL`. -/
theorem traffic_control_cex :
    (set_agent_state_to_running exC7).maxIterations = 15
    ∧ 15 ≠ 2 * exC7.maxIterations
    ∧ (set_agent_state_to_running exC7b).trafficControlState
        = TrafficControlState.paused
    ∧ (step_traffic_check (set_agent_state_to_running exC7b)).1.trafficControlState
        ≠ TrafficControlState.normal := by
  decide

/-- C7 (amended): reaching the iteration or budget limit while traffic
control is not `PAUSED` moves it to `THROTTLING` and stops the step; a user
resume while the agent is paused and throttled (interactive mode, at the
iteration limit) moves traffic control to `PAUSED` and increases
`max_iterations` by the initial `max_iterations` — doubling it only while it
still equals the initial value, e.g. 5 becomes 10; and the next step that
again reaches a limit returns traffic control to `NORMAL` and proceeds. -/
theorem traffic_control_amended :
    (∀ st : TCState, st.trafficControlState ≠ .paused →
      (st.maxIterations ≤ st.iteration
        ∨ (∃ mb, st.maxBudgetPerTask = some mb ∧ mb < st.accumulatedCost)) →
      (step_traffic_check st).1.trafficControlState = .throttling
        ∧ (step_traffic_check st).2 = true)
    ∧ (∀ st : TCState, st.agentState = .paused →
        st.trafficControlState = .throttling → st.headlessMode = false →
        st.maxIterations ≤ st.iteration →
          (set_agent_state_to_running st).trafficControlState
              = TrafficControlState.paused
          ∧ (set_agent_state_to_running st).maxIterations
              = st.maxIterations + st.initialMaxIterations
          ∧ (set_agent_state_to_running st).agentState = .running)
    ∧ (∀ st : TCState, st.trafficControlState = .paused →
        handle_traffic_control st
          = ({ st with trafficControlState := .normal }, false)) := by
  refine ⟨?_, ?_, ?_⟩
  · intro st hp hbr
    unfold step_traffic_check handle_traffic_control
    rcases hmb : st.maxBudgetPerTask with _ | mb
    all_goals by_cases h1 : st.maxIterations ≤ st.iteration
    all_goals rcases hbr with h2 | ⟨mb', hmb', h3⟩
    all_goals simp_all
    all_goals split_ifs
    all_goals simp_all
  · intro st ha ht hh hi
    have hnr : st.agentState ≠ AgentState.running := by simp [ha]
    unfold set_agent_state_to_running
    rw [if_neg hnr, if_pos ⟨ha, ht⟩]
    simp only [hh, Bool.false_eq_true, not_false_eq_true, true_and, if_pos hi]
    rcases hmb : st.maxBudgetPerTask with _ | mb
    all_goals rcases hib : st.initialMaxBudgetPerTask with _ | ib
    all_goals simp_all
    all_goals split_ifs
    all_goals simp_all
  · intro st hp
    unfold handle_traffic_control
    rw [if_pos hp]

/-- Witness for `traffic_control_amended` at the three concrete states. -/
theorem traffic_control_amended_witness :
    ((step_traffic_check exC7a).1.trafficControlState = .throttling
      ∧ (step_traffic_check exC7a).2 = true)
    ∧ ((set_agent_state_to_running exC7b).trafficControlState
          = TrafficControlState.paused
        ∧ (set_agent_state_to_running exC7b).maxIterations = 10
        ∧ (set_agent_state_to_running exC7b).agentState = .running)
    ∧ handle_traffic_control exC7c
        = ({ exC7c with trafficControlState := .normal }, false) := by
  refine ⟨traffic_control_amended.1 exC7a (by decide) (Or.inl (by decide)), ?_, ?_⟩
  · have h := traffic_control_amended.2.1 exC7b (by decide) (by decide) (by decide)
      (by decide)
    exact ⟨h.1, h.2.1.trans (by decide), h.2.2⟩
  · exact traffic_control_amended.2.2 exC7c (by decide)

theorem dedup_tools_sublist (l : List ToolParam) (seen : List String) :
    List.Sublist (dedup_tools seen l) l := by
  induction l generalizing seen with
  | nil => simp [dedup_tools]
  | cons t rest ih =>
    by_cases h : t.name ∈ seen
    · simp only [dedup_tools, if_pos h]
      exact (ih seen).trans (List.sublist_cons_self t rest)
    · simp only [dedup_tools, if_neg h]
      exact (ih _).cons₂ t

theorem dedup_tools_find (l : List ToolParam) :
    ∀ (seen : List String) (t : ToolParam), t ∈ dedup_tools seen l →
      t.name ∉ seen ∧ l.find? (fun x => decide (x.name = t.name)) = some t := by
  induction l with
  | nil => simp [dedup_tools]
  | cons hd rest ih =>
    intro seen t ht
    by_cases h : hd.name ∈ seen
    · rw [dedup_tools, if_pos h] at ht
      obtain ⟨hns, hfind⟩ := ih seen t ht
      have hne : ¬ (hd.name = t.name) := fun he => hns (he ▸ h)
      refine ⟨hns, ?_⟩
      rw [List.find?_cons_of_neg _ (by simpa using hne), hfind]
    · rw [dedup_tools, if_neg h] at ht
      rcases List.mem_cons.mp ht with rfl | ht'
      · exact ⟨h, by rw [List.find?_cons_of_pos _ (by simp)]⟩
      · obtain ⟨hns, hfind⟩ := ih _ t ht'
        simp only [List.mem_append, List.mem_singleton, not_or] at hns
        refine ⟨hns.1, ?_⟩
        have hne : ¬ (hd.name = t.name) := fun he => hns.2 he.symm
        rw [List.find?_cons_of_neg _ (by simpa using hne), hfind]

theorem dedup_tools_nodup (l : List ToolParam) :
    ∀ seen : List String, (tool_names (dedup_tools seen l)).Nodup ∧
      ∀ n ∈ tool_names (dedup_tools seen l), n ∉ seen := by
  induction l with
  | nil =>
    intro seen
    simp [dedup_tools, tool_names]
  | cons hd rest ih =>
    intro seen
    by_cases h : hd.name ∈ seen
    · simpa [dedup_tools, h] using ih seen
    · obtain ⟨ihn, ihs⟩ := ih (seen ++ [hd.name])
      constructor
      · simp only [dedup_tools, if_neg h, tool_names, List.map_cons, List.nodup_cons]
        refine ⟨fun hm => ?_, ihn⟩
        have := ihs hd.name hm
        simp at this
      · intro n hn
        simp only [dedup_tools, if_neg h, tool_names, List.map_cons,
          List.mem_cons] at hn
        rcases hn with rfl | hn
        · exact h
        · have := ihs n hn
          simp only [List.mem_append, not_or] at this
          exact this.1

theorem dedup_tools_covers (l : List ToolParam) :
    ∀ (seen : List String) (t : ToolParam), t ∈ l → t.name ∉ seen →
      ∃ t', t' ∈ dedup_tools seen l ∧ t'.name = t.name := by
  induction l with
  | nil => simp
  | cons hd rest ih =>
    intro seen t ht hns
    by_cases h : hd.name ∈ seen
    · rw [dedup_tools, if_pos h]
      rcases List.mem_cons.mp ht with rfl | ht'
      · exact absurd h hns
      · exact ih seen t ht' hns
    · rw [dedup_tools, if_neg h]
      by_cases he : t.name = hd.name
      · exact ⟨hd, List.mem_cons_self hd _, he.symm⟩
      · rcases List.mem_cons.mp ht with rfl | ht'
        · exact absurd rfl he
        · obtain ⟨t', ht'', hn⟩ := ih (seen ++ [hd.name]) t ht' (by simp [hns, he])
          exact ⟨t', List.mem_cons_of_mem _ ht'', hn⟩

theorem nodup_find_self (l : List ToolParam) (hnd : (tool_names l).Nodup)
    (t : ToolParam) (ht : t ∈ l) :
    l.find? (fun x => decide (x.name = t.name)) = some t := by
  induction l with
  | nil => simp at ht
  | cons hd rest ih =>
    simp only [tool_names, List.map_cons, List.nodup_cons] at hnd
    rcases List.mem_cons.mp ht with rfl | ht'
    · rw [List.find?_cons_of_pos _ (by simp)]
    · have hne : ¬ (hd.name = t.name) := by
        intro he
        exact hnd.1 (he ▸ List.mem_map_of_mem ToolParam.name ht')
      rw [List.find?_cons_of_neg _ (by simpa using hne)]
      exact ih hnd.2 ht'

theorem not_hasdup_nodup (l : List ToolParam) (h : has_duplicate_names l = false) :
    (tool_names l).Nodup := by
  rw [List.nodup_iff_count_le_one]
  intro n
  by_cases hm : n ∈ tool_names l
  · by_contra hc
    push_neg at hc
    have hany : (tool_names l).any (fun m => 1 < (tool_names l).count m) = true := by
      rw [List.any_eq_true]
      exact ⟨n, hm, by simpa using hc⟩
    rw [has_duplicate_names] at h
    rw [hany] at h
    cases h
  · simp [List.count_eq_zero_of_not_mem hm]

/-- C6 (confirmed): the merged tool list has pairwise distinct function
names, is a sublist of built-ins followed by hub tools (so the original
order is preserved), every kept tool is the first occurrence of its name in
that order, and no name is dropped entirely. -/
theorem combined_tools_amended (bi fh : List ToolParam) :
    (tool_names (combined_tools bi fh)).Nodup
    ∧ List.Sublist (combined_tools bi fh) (bi ++ fh)
    ∧ (∀ t ∈ combined_tools bi fh,
        (bi ++ fh).find? (fun x => decide (x.name = t.name)) = some t)
    ∧ (∀ t ∈ bi ++ fh, ∃ t', t' ∈ combined_tools bi fh ∧ t'.name = t.name) := by
  unfold combined_tools
  by_cases h : has_duplicate_names (bi ++ fh) = true
  · simp only [h, if_true]
    refine ⟨(dedup_tools_nodup _ []).1, dedup_tools_sublist _ [], ?_, ?_⟩
    · intro t ht
      exact (dedup_tools_find _ [] t ht).2
    · intro t ht
      exact dedup_tools_covers _ [] t ht (by simp)
  · rw [Bool.not_eq_true] at h
    have hnd := not_hasdup_nodup _ h
    simp only [h, Bool.false_eq_true, if_false]
    exact ⟨hnd, List.Sublist.refl _, fun t ht => nodup_find_self _ hnd t ht,
      fun t ht => ⟨t, ht, rfl⟩⟩

/-- Witness for `combined_tools_amended`: a hub tool named `finish` collides
with the built-in `finish`; the built-in is kept. -/
theorem combined_tools_amended_witness :
    combined_tools exTools exHub
      = [ { name := "finish", payload := 0 }, { name := "bash", payload := 1 },
          { name := "search", payload := 3 } ]
    ∧ (exTools ++ exHub).find?
        (fun x => decide (x.name = (⟨"finish", 0⟩ : ToolParam).name))
      = some ⟨"finish", 0⟩ := by
  refine ⟨by decide, ?_⟩
  exact (combined_tools_amended exTools exHub).2.2.1 ⟨"finish", 0⟩ (by decide)

theorem range_map_getElem? {α : Type} (n : Nat) (f : Nat → α) (i : Nat) (hi : i < n) :
    ((List.range n).map f)[i]? = some (f i) := by
  rw [List.getElem?_map, List.getElem?_range hi]
  rfl

theorem range_map_eq_self {α : Type} (l : List α) (f : Nat → α)
    (hf : ∀ (i : Nat) (h : i < l.length), f i = l[i]) :
    (List.range l.length).map f = l := by
  apply List.ext_getElem
  · simp
  · intro i h1 h2
    simp only [List.getElem_map, List.getElem_range]
    exact hf i h2

/-- C5 (confirmed): updating an existing plan with a non-empty steps list
keeps the status, notes and result of each step whose text is unchanged at
the same index, resets every other step to not_started with empty notes and
no result, and an update with the current steps list is a no-op for
statuses, notes and results. -/
theorem update_plan_amended (st : ToolState) (p : String) (plan : PlanRec)
    (title : Option String) (ss : List String)
    (hp : p ≠ "") (hlk : dictLookup p st.plans = some plan) (hss : ss ≠ [])
    (hlen1 : plan.stepStatuses.length = plan.steps.length)
    (hlen2 : plan.stepNotes.length = plan.steps.length)
    (hlen3 : plan.stepResults.length = plan.steps.length) :
    ∃ plan',
      update_plan st (some p) title (some ss)
        = ({ st with plans := dictInsert p plan' st.plans }, .ok ())
      ∧ plan'.steps = ss
      ∧ (∀ i, i < ss.length →
          ((i < plan.steps.length ∧ ss.getD i "" = plan.steps.getD i "") →
            plan'.stepStatuses[i]? = plan.stepStatuses[i]?
            ∧ plan'.stepNotes[i]? = plan.stepNotes[i]?
            ∧ plan'.stepResults[i]? = plan.stepResults[i]?)
          ∧ (¬ (i < plan.steps.length ∧ ss.getD i "" = plan.steps.getD i "") →
            plan'.stepStatuses[i]? = some "not_started"
            ∧ plan'.stepNotes[i]? = some ""
            ∧ plan'.stepResults[i]? = some none))
      ∧ (ss = plan.steps →
          plan'.stepStatuses = plan.stepStatuses
          ∧ plan'.stepNotes = plan.stepNotes
          ∧ plan'.stepResults = plan.stepResults) := by
  have htr : optStrTruthy (some p) = true := by simp [optStrTruthy, hp]
  have hssE : ss.isEmpty = false := by simpa [List.isEmpty_iff] using hss
  -- the title branch does not change steps, statuses, notes or results
  set plan1 := if optStrTruthy title then { plan with title := title.getD "" } else plan
    with hplan1
  have hfields : plan1.steps = plan.steps ∧ plan1.stepStatuses = plan.stepStatuses
      ∧ plan1.stepNotes = plan.stepNotes ∧ plan1.stepResults = plan.stepResults := by
    by_cases ht : optStrTruthy title = true <;> simp [hplan1, ht]
  obtain ⟨hf1, hf2, hf3, hf4⟩ := hfields
  refine
    ⟨{ plan1 with
         steps := ss
         stepStatuses := new_statuses_fn ss plan1.steps plan1.stepStatuses
         stepNotes := new_notes_fn ss plan1.steps plan1.stepNotes
         stepResults := new_results_fn ss plan1.steps plan1.stepResults },
      ?_, rfl, ?_, ?_⟩
  · simp only [update_plan, htr, if_true, hlk, hssE, hplan1]
    simp [hp]
  · intro i hi
    constructor
    · rintro ⟨hil, heq⟩
      rw [hf1, hf2, hf3, hf4]
      refine ⟨?_, ?_, ?_⟩
      · show (new_statuses_fn ss plan.steps plan.stepStatuses)[i]? = _
        rw [new_statuses_fn, range_map_getElem? _ _ i hi, if_pos ⟨hil, heq⟩,
          List.getD_eq_getElem _ _ (hlen1 ▸ hil),
          List.getElem?_eq_getElem (hlen1 ▸ hil)]
      · show (new_notes_fn ss plan.steps plan.stepNotes)[i]? = _
        rw [new_notes_fn, range_map_getElem? _ _ i hi, if_pos ⟨hil, heq⟩,
          List.getD_eq_getElem _ _ (hlen2 ▸ hil),
          List.getElem?_eq_getElem (hlen2 ▸ hil)]
      · show (new_results_fn ss plan.steps plan.stepResults)[i]? = _
        rw [new_results_fn, range_map_getElem? _ _ i hi, if_pos ⟨hil, heq⟩,
          if_pos (hlen3 ▸ hil),
          List.getD_eq_getElem _ _ (hlen3 ▸ hil),
          List.getElem?_eq_getElem (hlen3 ▸ hil)]
    · intro hneg
      rw [hf1, hf2, hf3, hf4]
      refine ⟨?_, ?_, ?_⟩
      · show (new_statuses_fn ss plan.steps plan.stepStatuses)[i]? = _
        rw [new_statuses_fn, range_map_getElem? _ _ i hi, if_neg hneg]
      · show (new_notes_fn ss plan.steps plan.stepNotes)[i]? = _
        rw [new_notes_fn, range_map_getElem? _ _ i hi, if_neg hneg]
      · show (new_results_fn ss plan.steps plan.stepResults)[i]? = _
        rw [new_results_fn, range_map_getElem? _ _ i hi, if_neg hneg]
  · intro hse
    rw [hf1, hf2, hf3, hf4, ← hse]
    refine ⟨?_, ?_, ?_⟩
    · show new_statuses_fn ss ss plan.stepStatuses = plan.stepStatuses
      rw [new_statuses_fn]
      have hl : ss.length = plan.stepStatuses.length := by rw [hse, hlen1]
      rw [hl]
      apply range_map_eq_self
      intro i h
      rw [if_pos ⟨hl ▸ h, rfl⟩, List.getD_eq_getElem _ _ h]
    · show new_notes_fn ss ss plan.stepNotes = plan.stepNotes
      rw [new_notes_fn]
      have hl : ss.length = plan.stepNotes.length := by rw [hse, hlen2]
      rw [hl]
      apply range_map_eq_self
      intro i h
      rw [if_pos ⟨hl ▸ h, rfl⟩, List.getD_eq_getElem _ _ h]
    · show new_results_fn ss ss plan.stepResults = plan.stepResults
      rw [new_results_fn]
      have hl : ss.length = plan.stepResults.length := by rw [hse, hlen3]
      rw [hl]
      apply range_map_eq_self
      intro i h
      rw [if_pos ⟨hl ▸ h, rfl⟩, if_pos h, List.getD_eq_getElem _ _ h]

/-- Witness for `update_plan_amended`: updating plan "q" with its own steps
list leaves statuses, notes and results unchanged. -/
theorem update_plan_amended_witness :
    dictLookup "q" exTool.plans = some exPlanRec
    ∧ (["a", "b"] : List String) ≠ []
    ∧ ∃ plan',
        update_plan exTool (some "q") none (some ["a", "b"])
          = ({ exTool with plans := dictInsert "q" plan' exTool.plans }, .ok ())
        ∧ plan'.stepStatuses = exPlanRec.stepStatuses
        ∧ plan'.stepNotes = exPlanRec.stepNotes
        ∧ plan'.stepResults = exPlanRec.stepResults := by
  refine ⟨by decide, by decide, ?_⟩
  obtain ⟨plan', heq, hsteps, hpt, hnoop⟩ :=
    update_plan_amended exTool "q" exPlanRec none ["a", "b"]
      (by decide) (by decide) (by decide) (by decide) (by decide) (by decide)
  obtain ⟨h1, h2, h3⟩ := hnoop (by decide)
  exact ⟨plan', heq, h1, h2, h3⟩

/-- C3 (confirmed): on a delegate's `AgentFinish` while not every task of
the active plan is COMPLETED or BLOCKED, the current task becomes COMPLETED
with the final thought stored as its result and a `MarkTask(COMPLETED)` is
published; when a next task exists, `current_task_index` is incremented, the
next task becomes IN_PROGRESS and a `MarkTask(IN_PROGRESS)` is published;
otherwise a user-sourced message instructs the planner to finalise. -/
theorem handle_agent_finish_advances (st : PCState) (ft : String)
    (plan : CtrlPlan) (cur : CtrlTask)
    (hlk : dictLookup st.activePlanId st.plans = some plan)
    (hnr : is_all_task_resolved plan = false)
    (hcur : plan.tasks[st.currentTaskIndex]? = some cur)
    (hdel : delegate_del_ok st = true) :
    ∃ st' evs, handle_agent_finish st ft = some (st', evs)
      ∧ ∃ plan', dictLookup st.activePlanId st'.plans = some plan'
        ∧ plan'.tasks[st.currentTaskIndex]?
            = some { cur with status := .completed, result := some ft }
        ∧ Emitted.markTask st.activePlanId st.currentTaskIndex cur.content
            .completed ∈ evs
        ∧ (if st.currentTaskIndex + 1 < plan.tasks.length then
            st'.currentTaskIndex = st.currentTaskIndex + 1
            ∧ ∃ nt, plan.tasks[st.currentTaskIndex + 1]? = some nt
              ∧ plan'.tasks[st.currentTaskIndex + 1]?
                  = some { nt with status := .inProgress }
              ∧ Emitted.markTask st.activePlanId (st.currentTaskIndex + 1)
                  nt.content .inProgress ∈ evs
          else
            st'.currentTaskIndex = st.currentTaskIndex
            ∧ Emitted.userMessage finalize_message ∈ evs) := by
  have hlt0 : st.currentTaskIndex < plan.tasks.length := by
    rw [List.getElem?_eq_some] at hcur
    exact hcur.1
  have hdone : (plan.tasks.set st.currentTaskIndex
      { cur with status := .completed, result := some ft })[st.currentTaskIndex]?
      = some { cur with status := .completed, result := some ft } :=
    List.getElem?_set_eq_of_lt _ (by simpa using hlt0)
  rcases hti : dictLookup st.activePlanId st.taskControllers with _ | inner
  · by_cases hlt : st.currentTaskIndex + 1 < plan.tasks.length
    · obtain ⟨nt, hnt⟩ : ∃ nt, plan.tasks[st.currentTaskIndex + 1]? = some nt :=
        ⟨plan.tasks[st.currentTaskIndex + 1], List.getElem?_eq_getElem hlt⟩
      have hnx : (plan.tasks.set st.currentTaskIndex
          { cur with status := .completed, result := some ft })[st.currentTaskIndex + 1]?
          = some nt := by
        rw [List.getElem?_set_ne (by omega)]
        exact hnt
      have heq : handle_agent_finish st ft = some
          ({ st with
               plans := dictInsert st.activePlanId
                 ⟨(plan.tasks.set st.currentTaskIndex
                     { cur with status := .completed, result := some ft }).set
                     (st.currentTaskIndex + 1) { nt with status := .inProgress }⟩
                 st.plans,
               currentTaskIndex := st.currentTaskIndex + 1,
               taskControllers := st.taskControllers },
           [ .markTask st.activePlanId st.currentTaskIndex cur.content .completed,
             .markTask st.activePlanId (st.currentTaskIndex + 1) nt.content
               .inProgress ]) := by
        unfold handle_agent_finish
        rw [hlk]
        simp only [hnr, Bool.false_eq_true, if_false, hcur, hti, List.length_set,
          if_pos hlt, hnx]
      refine ⟨_, _, heq, ?_⟩
      refine ⟨⟨(plan.tasks.set st.currentTaskIndex
          { cur with status := .completed, result := some ft }).set
          (st.currentTaskIndex + 1) { nt with status := .inProgress }⟩,
        dictLookup_insert_self _ _ _, ?_, by simp, ?_⟩
      · show ((plan.tasks.set _ _).set (st.currentTaskIndex + 1) _)[st.currentTaskIndex]?
            = _
        rw [List.getElem?_set_ne (by omega)]
        exact hdone
      · rw [if_pos hlt]
        refine ⟨rfl, nt, hnt, ?_, by simp⟩
        exact List.getElem?_set_eq_of_lt _ (by simpa using hlt)
    · have heq : handle_agent_finish st ft = some
          ({ st with
               plans := dictInsert st.activePlanId
                 ⟨plan.tasks.set st.currentTaskIndex
                     { cur with status := .completed, result := some ft }⟩
                 st.plans,
               taskControllers := st.taskControllers },
           [ .markTask st.activePlanId st.currentTaskIndex cur.content .completed,
             .userMessage finalize_message ]) := by
        unfold handle_agent_finish
        rw [hlk]
        simp only [hnr, Bool.false_eq_true, if_false, hcur, hti, List.length_set,
          if_neg hlt]
      refine ⟨_, _, heq, ?_⟩
      refine ⟨⟨plan.tasks.set st.currentTaskIndex
          { cur with status := .completed, result := some ft }⟩,
        dictLookup_insert_self _ _ _, hdone, by simp, ?_⟩
      rw [if_neg hlt]
      exact ⟨rfl, by simp⟩
  · rw [delegate_del_ok, hti] at hdel
    rw [Option.isSome_iff_exists] at hdel
    obtain ⟨c0, hdi⟩ := hdel
    by_cases hlt : st.currentTaskIndex + 1 < plan.tasks.length
    · obtain ⟨nt, hnt⟩ : ∃ nt, plan.tasks[st.currentTaskIndex + 1]? = some nt :=
        ⟨plan.tasks[st.currentTaskIndex + 1], List.getElem?_eq_getElem hlt⟩
      have hnx : (plan.tasks.set st.currentTaskIndex
          { cur with status := .completed, result := some ft })[st.currentTaskIndex + 1]?
          = some nt := by
        rw [List.getElem?_set_ne (by omega)]
        exact hnt
      have heq : handle_agent_finish st ft = some
          ({ st with
               plans := dictInsert st.activePlanId
                 ⟨(plan.tasks.set st.currentTaskIndex
                     { cur with status := .completed, result := some ft }).set
                     (st.currentTaskIndex + 1) { nt with status := .inProgress }⟩
                 st.plans,
               currentTaskIndex := st.currentTaskIndex + 1,
               taskControllers := dictInsert st.activePlanId
                 (dictErase st.currentTaskIndex inner) st.taskControllers },
           [ .markTask st.activePlanId st.currentTaskIndex cur.content .completed,
             .markTask st.activePlanId (st.currentTaskIndex + 1) nt.content
               .inProgress ]) := by
        unfold handle_agent_finish
        rw [hlk]
        simp only [hnr, Bool.false_eq_true, if_false, hcur, hti, hdi,
          List.length_set, if_pos hlt, hnx]
      refine ⟨_, _, heq, ?_⟩
      refine ⟨⟨(plan.tasks.set st.currentTaskIndex
          { cur with status := .completed, result := some ft }).set
          (st.currentTaskIndex + 1) { nt with status := .inProgress }⟩,
        dictLookup_insert_self _ _ _, ?_, by simp, ?_⟩
      · show ((plan.tasks.set _ _).set (st.currentTaskIndex + 1) _)[st.currentTaskIndex]?
            = _
        rw [List.getElem?_set_ne (by omega)]
        exact hdone
      · rw [if_pos hlt]
        refine ⟨rfl, nt, hnt, ?_, by simp⟩
        exact List.getElem?_set_eq_of_lt _ (by simpa using hlt)
    · have heq : handle_agent_finish st ft = some
          ({ st with
               plans := dictInsert st.activePlanId
                 ⟨plan.tasks.set st.currentTaskIndex
                     { cur with status := .completed, result := some ft }⟩
                 st.plans,
               taskControllers := dictInsert st.activePlanId
                 (dictErase st.currentTaskIndex inner) st.taskControllers },
           [ .markTask st.activePlanId st.currentTaskIndex cur.content .completed,
             .userMessage finalize_message ]) := by
        unfold handle_agent_finish
        rw [hlk]
        simp only [hnr, Bool.false_eq_true, if_false, hcur, hti, hdi,
          List.length_set, if_neg hlt]
      refine ⟨_, _, heq, ?_⟩
      refine ⟨⟨plan.tasks.set st.currentTaskIndex
          { cur with status := .completed, result := some ft }⟩,
        dictLookup_insert_self _ _ _, hdone, by simp, ?_⟩
      rw [if_neg hlt]
      exact ⟨rfl, by simp⟩

/-- Witness for `handle_agent_finish_advances` on the concrete two-task
state `exPC` at task 0. -/
theorem handle_agent_finish_advances_witness :
    dictLookup exPC.activePlanId exPC.plans = some exPlan2
    ∧ is_all_task_resolved exPlan2 = false
    ∧ exPlan2.tasks[exPC.currentTaskIndex]?
        = some { content := "t0", status := .inProgress, result := none }
    ∧ delegate_del_ok exPC = true
    ∧ (∃ st' evs, handle_agent_finish exPC "done" = some (st', evs)
        ∧ ∃ plan', dictLookup exPC.activePlanId st'.plans = some plan'
          ∧ plan'.tasks[exPC.currentTaskIndex]?
              = some { content := "t0", status := .completed, result := some "done" }
          ∧ Emitted.markTask exPC.activePlanId exPC.currentTaskIndex "t0"
              .completed ∈ evs
          ∧ (if exPC.currentTaskIndex + 1 < exPlan2.tasks.length then
              st'.currentTaskIndex = exPC.currentTaskIndex + 1
              ∧ ∃ nt, exPlan2.tasks[exPC.currentTaskIndex + 1]? = some nt
                ∧ plan'.tasks[exPC.currentTaskIndex + 1]?
                    = some { nt with status := .inProgress }
                ∧ Emitted.markTask exPC.activePlanId (exPC.currentTaskIndex + 1)
                    nt.content .inProgress ∈ evs
            else
              st'.currentTaskIndex = exPC.currentTaskIndex
              ∧ Emitted.userMessage finalize_message ∈ evs)) := by
  refine ⟨by decide, by decide, by decide, by decide, ?_⟩
  exact handle_agent_finish_advances exPC "done" exPlan2
    { content := "t0", status := .inProgress, result := none }
    (by decide) (by decide) (by decide) (by decide)

theorem repair_scan_cases (dropped kept : List Event) :
    ∀ rest : List Event,
      repair_scan dropped kept rest = kept
      ∨ repair_scan dropped kept rest = kept.drop 1
      ∨ ∃ a ∈ dropped, repair_scan dropped kept rest = a :: kept := by
  intro rest
  induction rest with
  | nil => exact Or.inl rfl
  | cons fe r ih =>
    rw [repair_scan]
    by_cases h1 : (isObservation fe && causeTruthy fe) = true
    · rw [if_pos h1]
      rcases hc : fe.cause with _ | c
      · simp [hc]
      · rcases hf : find_matching_action dropped c with _ | a
        · simp [hc, hf]
        · simp only [hc, hf]
          refine Or.inr (Or.inr ⟨a, ?_, rfl⟩)
          have := List.mem_of_find?_eq_some hf
          simpa using this
    · rw [if_neg h1]
      by_cases h2 : (isMessageAction fe || (isAction fe && decide (fe.source = .user))) = true
      · rw [if_pos h2]
        exact ih
      · rw [if_neg h2]
        exact Or.inl rfl

theorem count_events_eq_one (events : List Event) (u : Event)
    (hnodup : (events.map Event.id).Nodup) (hmem : u ∈ events) :
    events.count u = 1 :=
  List.count_eq_one_of_mem (List.Nodup.of_map _ hnodup) hmem

/-- C1 (amended): for a history with pairwise distinct event ids and a user
message, the context-overflow window cuts at `mid = max(1, len // 2)` — the
result extends the tail `events[mid+1:]` of the second half — the first user
message is present exactly once, and every kept event comes from the
original history; observations deeper in the window may keep a cause whose
action was dropped (only the first kept event is repaired). -/
theorem apply_conversation_window_amended (events : List Event) (u : Event)
    (hnodup : (events.map Event.id).Nodup)
    (hu : events.find? isUserMessage = some u) :
    (apply_conversation_window events).count u = 1
    ∧ (∀ e ∈ apply_conversation_window events, e ∈ events)
    ∧ List.IsSuffix ((events.drop (max 1 (events.length / 2))).drop 1)
        (apply_conversation_window events) := by
  have hne : events ≠ [] := by
    intro h
    rw [h] at hu
    simp at hu
  have hmem : u ∈ events := List.mem_of_find?_eq_some hu
  have hcount1 : events.count u = 1 := count_events_eq_one events u hnodup hmem
  have hsplit : (events.take (max 1 (events.length / 2))).count u
      + (events.drop (max 1 (events.length / 2))).count u = 1 := by
    rw [← List.count_append, List.take_append_drop]
    exact hcount1
  have hkle : (events.drop (max 1 (events.length / 2))).count u ≤ 1 := by omega
  have hACW : apply_conversation_window events
      = (if u ∈ repair_scan (events.take (max 1 (events.length / 2)))
              (events.drop (max 1 (events.length / 2)))
              (events.drop (max 1 (events.length / 2)))
         then repair_scan (events.take (max 1 (events.length / 2)))
              (events.drop (max 1 (events.length / 2)))
              (events.drop (max 1 (events.length / 2)))
         else u :: repair_scan (events.take (max 1 (events.length / 2)))
              (events.drop (max 1 (events.length / 2)))
              (events.drop (max 1 (events.length / 2)))) := by
    unfold apply_conversation_window
    rw [if_neg (by simpa [List.isEmpty_iff] using hne)]
    rw [hu]
  set K := repair_scan (events.take (max 1 (events.length / 2)))
      (events.drop (max 1 (events.length / 2)))
      (events.drop (max 1 (events.length / 2))) with hK
  have hcase := repair_scan_cases (events.take (max 1 (events.length / 2)))
      (events.drop (max 1 (events.length / 2)))
      (events.drop (max 1 (events.length / 2)))
  rw [← hK] at hcase
  have hKsub : ∀ e ∈ K, e ∈ events := by
    rcases hcase with h | h | ⟨a, ha, h⟩ <;> rw [h] <;> intro e he
    · exact List.drop_subset _ _ he
    · exact List.drop_subset _ _ (List.drop_subset _ _ he)
    · rcases List.mem_cons.mp he with rfl | he'
      · exact List.take_subset _ _ ha
      · exact List.drop_subset _ _ he'
  have hKsuffix : List.IsSuffix ((events.drop (max 1 (events.length / 2))).drop 1) K := by
    rcases hcase with h | h | ⟨a, ha, h⟩ <;> rw [h]
    · exact List.drop_suffix 1 _
    · exact (List.drop_suffix 1 _).trans (List.suffix_cons a _)
  have hKcount : K.count u ≤ 1 ∨ (K.count u = 1 ∧ u ∈ K) := by
    rcases hcase with h | h | ⟨a, ha, h⟩
    · rw [h]
      exact Or.inl hkle
    · rw [h]
      exact Or.inl (le_trans ((List.drop_sublist 1 _).count_le u) hkle)
    · rw [h]
      rcases eq_or_ne a u with rfl | hne'
      · right
        have hta : 1 ≤ (events.take (max 1 (events.length / 2))).count a :=
          List.one_le_count_iff.mpr ha
        have hdz : (events.drop (max 1 (events.length / 2))).count a = 0 := by omega
        constructor
        · rw [List.count_cons_self, hdz]
        · exact List.mem_cons_self _ _
      · left
        rw [List.count_cons_of_ne (Ne.symm hne')]
        exact hkle
  rw [hACW]
  by_cases hmemK : u ∈ K
  · rw [if_pos hmemK]
    refine ⟨?_, hKsub, hKsuffix⟩
    rcases hKcount with h | ⟨h, _⟩
    · have h1 : 1 ≤ K.count u := List.one_le_count_iff.mpr hmemK
      omega
    · exact h
  · rw [if_neg hmemK]
    refine ⟨?_, ?_, ?_⟩
    · rw [List.count_cons_self]
      have hz : K.count u = 0 := by
        rw [List.count_eq_zero]
        exact hmemK
      omega
    · intro e he
      rcases List.mem_cons.mp he with rfl | he'
      · exact hmem
      · exact hKsub e he'
    · exact hKsuffix.trans (List.suffix_cons u K)

/-- C1 counterexample: in the four-event history U0, A1, A2, O(cause = A1)
the window keeps [A2, O] and prepends U0; the observation O stays in the
returned list while its cause action A1 is absent, refuting the pairing
conjunct of the claim. -/
theorem apply_conversation_window_pairing_cex :
    exC1 ≠ []
    ∧ obs_paired (apply_conversation_window exC1) = false
    ∧ apply_conversation_window exC1
      = [ { id := 0, source := .user, kind := .action .message },
          { id := 2, source := .agent, kind := .action .cmdRun },
          { id := 3, source := .environment, kind := .observation .cmdOutput,
            cause := some 1 } ] := by
  refine ⟨by decide, by decide, by decide⟩

/-- Witness for `apply_conversation_window_amended` on the three-event
history `exC1w`. -/
theorem apply_conversation_window_amended_witness :
    (exC1w.map Event.id).Nodup
    ∧ exC1w.find? isUserMessage
        = some { id := 0, source := .user, kind := .action .message }
    ∧ ((apply_conversation_window exC1w).count
          { id := 0, source := .user, kind := .action .message } = 1
        ∧ (∀ e ∈ apply_conversation_window exC1w, e ∈ exC1w)
        ∧ List.IsSuffix ((exC1w.drop (max 1 (exC1w.length / 2))).drop 1)
            (apply_conversation_window exC1w)) := by
  refine ⟨by decide, by decide, ?_⟩
  exact apply_conversation_window_amended exC1w
    { id := 0, source := .user, kind := .action .message } (by decide) (by decide)

theorem run_loop_closed (rs : List FHResponse) :
    ∀ acc : FHAcc, (∀ r ∈ rs, is_base64_media r = true → r.description ≠ "") →
      run_loop acc rs = some
        { textContents := acc.textContents ++ rs.filterMap text_piece,
          imageUrls := acc.imageUrls
            ++ (rs.filter fun r => decide (r.responseType = .imageUrl)).map FHResponse.content,
          videoUrls := acc.videoUrls
            ++ (rs.filter fun r => decide (r.responseType = .videoUrl)).map FHResponse.content,
          audioUrls := acc.audioUrls
            ++ (rs.filter fun r => decide (r.responseType = .audioUrl)).map FHResponse.content,
          blob := blob_fold acc.blob rs,
          error := err_join acc.error
            ((rs.filter fun r => decide (r.responseType = ResponseType.errorResp)).map
              FHResponse.content) } := by
  induction rs with
  | nil =>
    intro acc h
    simp [run_loop, blob_fold, err_join]
  | cons r rest ih =>
    intro acc h
    have hrest : ∀ x ∈ rest, is_base64_media x = true → x.description ≠ "" :=
      fun x hx => h x (List.mem_cons_of_mem _ hx)
    obtain ⟨rt, cont, desc⟩ := r
    cases rt
    case text =>
      simp only [run_loop, run_step]
      rw [ih _ hrest]
      simp [text_piece, is_base64_media, blob_fold, err_join, List.filterMap_cons,
        List.filter_cons]
    case imageUrl =>
      simp only [run_loop, run_step]
      rw [ih _ hrest]
      simp [text_piece, is_base64_media, blob_fold, err_join, List.filterMap_cons,
        List.filter_cons]
    case videoUrl =>
      simp only [run_loop, run_step]
      rw [ih _ hrest]
      simp [text_piece, is_base64_media, blob_fold, err_join, List.filterMap_cons,
        List.filter_cons]
    case audioUrl =>
      simp only [run_loop, run_step]
      rw [ih _ hrest]
      simp [text_piece, is_base64_media, blob_fold, err_join, List.filterMap_cons,
        List.filter_cons]
    case blob =>
      simp only [run_loop, run_step]
      rw [ih _ hrest]
      simp [text_piece, is_base64_media, blob_fold, err_join, List.filterMap_cons,
        List.filter_cons]
    case errorResp =>
      simp only [run_loop, run_step]
      rw [ih _ hrest]
      simp [text_piece, is_base64_media, blob_fold, err_join, List.filterMap_cons,
        List.filter_cons]
    case image =>
      have hd : desc ≠ "" := by
        have := h ⟨ResponseType.image, cont, desc⟩ (List.mem_cons_self _ _)
        simpa [is_base64_media] using this
      simp only [run_loop, run_step]
      rw [if_neg hd]
      show run_loop _ rest = _
      rw [ih _ hrest]
      simp only [text_piece, is_base64_media, blob_fold, err_join,
        List.filterMap_cons, List.filter_cons, Option.some.injEq, FHAcc.mk.injEq]
      by_cases hb : acc.blob = "" <;> simp [hb, List.append_assoc]
    case video =>
      have hd : desc ≠ "" := by
        have := h ⟨ResponseType.video, cont, desc⟩ (List.mem_cons_self _ _)
        simpa [is_base64_media] using this
      simp only [run_loop, run_step]
      rw [if_neg hd]
      show run_loop _ rest = _
      rw [ih _ hrest]
      simp only [text_piece, is_base64_media, blob_fold, err_join,
        List.filterMap_cons, List.filter_cons, Option.some.injEq, FHAcc.mk.injEq]
      by_cases hb : acc.blob = "" <;> simp [hb, List.append_assoc]
    case audio =>
      have hd : desc ≠ "" := by
        have := h ⟨ResponseType.audio, cont, desc⟩ (List.mem_cons_self _ _)
        simpa [is_base64_media] using this
      simp only [run_loop, run_step]
      rw [if_neg hd]
      show run_loop _ rest = _
      rw [ih _ hrest]
      simp only [text_piece, is_base64_media, blob_fold, err_join,
        List.filterMap_cons, List.filter_cons, Option.some.injEq, FHAcc.mk.injEq]
      by_cases hb : acc.blob = "" <;> simp [hb, List.append_assoc]

theorem append_ne_empty (x y : String) (hy : y ≠ "") : x ++ y ≠ "" := by
  intro h
  have h0 : (x ++ y).length = 0 := by rw [h]; rfl
  rw [String.length_append] at h0
  have h1 : y.length = 0 := by omega
  apply hy
  cases y
  simp [String.length] at h1
  simp [h1]

theorem blob_fold_append (l₁ l₂ : List FHResponse) :
    ∀ b, blob_fold b (l₁ ++ l₂) = blob_fold (blob_fold b l₁) l₂ := by
  induction l₁ with
  | nil =>
    intro b
    rfl
  | cons r rest ih =>
    intro b
    rw [List.cons_append, blob_fold, blob_fold]
    exact ih _

theorem blob_fold_stay (l : List FHResponse) :
    ∀ b, b ≠ "" → (∀ r ∈ l, r.responseType ≠ ResponseType.blob) →
      blob_fold b l = b := by
  induction l with
  | nil =>
    intro b _ _
    rfl
  | cons r rest ih =>
    intro b hb hnb
    rw [blob_fold, if_neg (hnb r (List.mem_cons_self _ _))]
    by_cases hm : is_base64_media r = true
    · rw [if_pos hm, if_neg hb]
      exact ih b hb fun x hx => hnb x (List.mem_cons_of_mem _ hx)
    · rw [if_neg hm]
      exact ih b hb fun x hx => hnb x (List.mem_cons_of_mem _ hx)

theorem blob_fold_noblob (l : List FHResponse)
    (hnb : ∀ r ∈ l, r.responseType ≠ ResponseType.blob)
    (hc : ∀ r ∈ l, is_base64_media r = true → r.content ≠ "") :
    blob_fold "" l
      = (match (l.filter is_base64_media).head? with
         | some r => r.content
         | none => "") := by
  induction l with
  | nil => rfl
  | cons r rest ih =>
    rw [blob_fold, if_neg (hnb r (List.mem_cons_self _ _)), List.filter_cons]
    by_cases hm : is_base64_media r = true
    · rw [if_pos hm, if_pos rfl]
      have hcr : r.content ≠ "" := hc r (List.mem_cons_self _ _) hm
      rw [blob_fold_stay rest r.content hcr
        fun x hx => hnb x (List.mem_cons_of_mem _ hx)]
      simp [hm]
    · rw [if_neg hm]
      simp only [hm, Bool.false_eq_true, if_false]
      exact ih (fun x hx => hnb x (List.mem_cons_of_mem _ hx))
        (fun x hx => hc x (List.mem_cons_of_mem _ hx))

theorem blob_fold_last_blob (l₂ : List FHResponse) :
    ∀ (b : String) (rb : FHResponse), rb.responseType = ResponseType.blob →
      rb.content ≠ "" → (∀ r ∈ l₂, r.responseType ≠ ResponseType.blob) →
      blob_fold b (rb :: l₂) = rb.content := by
  intro b rb hrb hc hnb
  rw [blob_fold, if_pos hrb]
  exact blob_fold_stay l₂ rb.content hc hnb

theorem err_join_ne (cs : List String) :
    ∀ e, e ≠ "" → (∀ c ∈ cs, c ≠ "") → err_join e cs = joinNL (e :: cs) := by
  induction cs with
  | nil =>
    intro e he _
    rw [err_join, joinNL]
    simp
  | cons c cs' ih =>
    intro e he hc
    rw [err_join, if_pos he]
    have hene : e ++ "\n" ++ c ≠ "" :=
      append_ne_empty _ _ (hc c (List.mem_cons_self _ _))
    rw [ih _ hene fun x hx => hc x (List.mem_cons_of_mem _ hx)]
    cases cs' with
    | nil => simp [joinNL]
    | cons d ds => simp [joinNL, String.append_assoc]

theorem err_join_closed (cs : List String) (hc : ∀ c ∈ cs, c ≠ "") :
    err_join "" cs = joinNL cs := by
  cases cs with
  | nil => rfl
  | cons c cs' =>
    rw [err_join]
    simp only [ne_eq, not_true_eq_false, if_false, String.empty_append]
    cases cs' with
    | nil => rfl
    | cons d ds =>
      rw [err_join_ne _ c (hc c (List.mem_cons_self _ _))
        fun x hx => hc x (List.mem_cons_of_mem _ hx)]

/-- C8 (amended): for executable response lists (every base64 media response
has a non-empty description, since the code crashes otherwise), `run`
produces one observation whose text concatenates the TEXT contents with the
bracketed media markers interleaved in order, whose image/video/audio url
lists collect the corresponding *_URL contents in order, whose error field
concatenates the ERROR contents with newline separators, and whose blob
field is the content of the last BLOB response when one occurs — a BLOB
always overwrites the blob — and otherwise the first base64 media content,
media filling only a still-empty blob. -/
theorem functionhub_run_amended (rs : List FHResponse)
    (hdesc : ∀ r ∈ rs, is_base64_media r = true → r.description ≠ "") :
    ∃ obs, functionhub_run rs = some obs
      ∧ obs.textContent = String.intercalate "\n" (rs.filterMap text_piece)
      ∧ obs.imageUrls
          = (rs.filter fun r => decide (r.responseType = .imageUrl)).map FHResponse.content
      ∧ obs.videoUrls
          = (rs.filter fun r => decide (r.responseType = .videoUrl)).map FHResponse.content
      ∧ obs.audioUrls
          = (rs.filter fun r => decide (r.responseType = .audioUrl)).map FHResponse.content
      ∧ ((∀ r ∈ rs, r.responseType = ResponseType.errorResp → r.content ≠ "") →
          obs.error = joinNL
            ((rs.filter fun r => decide (r.responseType = ResponseType.errorResp)).map
              FHResponse.content))
      ∧ ((∀ r ∈ rs, r.responseType ≠ ResponseType.blob) →
          (∀ r ∈ rs, is_base64_media r = true → r.content ≠ "") →
          obs.blob = (match (rs.filter is_base64_media).head? with
                      | some r => r.content
                      | none => ""))
      ∧ (∀ (l₁ : List FHResponse) (rb : FHResponse) (l₂ : List FHResponse),
          rs = l₁ ++ rb :: l₂ → rb.responseType = ResponseType.blob →
          rb.content ≠ "" → (∀ r ∈ l₂, r.responseType ≠ ResponseType.blob) →
          obs.blob = rb.content) := by
  have hrl := run_loop_closed rs {} hdesc
  refine
    ⟨{ functionName :=
         match rs.head? with
         | some r => if r.description ≠ "" then r.description else ""
         | none => ""
       textContent := String.intercalate "\n" (rs.filterMap text_piece)
       imageUrls :=
         (rs.filter fun r => decide (r.responseType = .imageUrl)).map FHResponse.content
       videoUrls :=
         (rs.filter fun r => decide (r.responseType = .videoUrl)).map FHResponse.content
       audioUrls :=
         (rs.filter fun r => decide (r.responseType = .audioUrl)).map FHResponse.content
       blob := blob_fold "" rs
       error := err_join ""
         ((rs.filter fun r => decide (r.responseType = ResponseType.errorResp)).map
           FHResponse.content) },
      ?_, rfl, rfl, rfl, rfl, ?_, ?_, ?_⟩
  · unfold functionhub_run
    rw [hrl]
    simp
  · intro hec
    show err_join "" _ = _
    apply err_join_closed
    intro c hcmem
    obtain ⟨r, hrmem, rfl⟩ := List.mem_map.mp hcmem
    obtain ⟨hrs, hrt⟩ := List.mem_filter.mp hrmem
    exact hec r hrs (by simpa using hrt)
  · intro h1 h2
    show blob_fold "" rs = _
    exact blob_fold_noblob rs h1 h2
  · intro l₁ rb l₂ hrs hblob hcne hnb
    show blob_fold "" rs = _
    rw [hrs, blob_fold_append]
    exact blob_fold_last_blob l₂ _ rb hblob hcne hnb

/-- C8 counterexample: for two BLOB responses with contents "a" then "b",
`run` keeps "b" — the last BLOB wins — while the claim's "first non-empty
one wins" demands "a". -/
theorem functionhub_blob_cex :
    (functionhub_run exC8).map FHObservation.blob = some "b"
    ∧ ((exC8.map FHResponse.content).filter (fun c => decide (c ≠ ""))).head?
        = some "a"
    ∧ ("b" : String) ≠ "a" := by
  refine ⟨rfl, rfl, by decide⟩

/-- Witness for `functionhub_run_amended` on the six-response list
`exC8w`. -/
theorem functionhub_run_amended_witness :
    (∀ r ∈ exC8w, is_base64_media r = true → r.description ≠ "")
    ∧ (∃ obs, functionhub_run exC8w = some obs
        ∧ obs.textContent = String.intercalate "\n" (exC8w.filterMap text_piece)
        ∧ obs.imageUrls
            = (exC8w.filter fun r => decide (r.responseType = .imageUrl)).map
                FHResponse.content
        ∧ obs.videoUrls
            = (exC8w.filter fun r => decide (r.responseType = .videoUrl)).map
                FHResponse.content
        ∧ obs.audioUrls
            = (exC8w.filter fun r => decide (r.responseType = .audioUrl)).map
                FHResponse.content
        ∧ ((∀ r ∈ exC8w, r.responseType = ResponseType.errorResp → r.content ≠ "") →
            obs.error = joinNL
              ((exC8w.filter fun r => decide (r.responseType = ResponseType.errorResp)).map
                FHResponse.content))
        ∧ ((∀ r ∈ exC8w, r.responseType ≠ ResponseType.blob) →
            (∀ r ∈ exC8w, is_base64_media r = true → r.content ≠ "") →
            obs.blob = (match (exC8w.filter is_base64_media).head? with
                        | some r => r.content
                        | none => ""))
        ∧ (∀ (l₁ : List FHResponse) (rb : FHResponse) (l₂ : List FHResponse),
            exC8w = l₁ ++ rb :: l₂ → rb.responseType = ResponseType.blob →
            rb.content ≠ "" → (∀ r ∈ l₂, r.responseType ≠ ResponseType.blob) →
            obs.blob = rb.content)) := by
  refine ⟨by decide, ?_⟩
  exact functionhub_run_amended exC8w (by decide)

end OpenHands
